/-
Verification of the network diagnostics monitors
(diagnostics/network/network.py): the latency monitor, the DNS monitor,
the SSL certificate monitor and the interface statistics accessor, as a
shallow embedding.  Timestamps are rationals (seconds, as returned by the
clock), latencies are rationals, machine I/O is passed in as an explicit
oracle argument (the value the socket layer would have produced, or the
exception it would have raised), and each method is a pure function from
the monitor state and the oracle to the result and the next state,
together with a flag telling whether the expensive operation (a
measurement, a resolution, a connection) was actually performed.
-/

import Mathlib

/-- Python dict lookup (`d[k]` / `k in d`) on an association list kept in
insertion order. -/
def dictFind {α : Type} : List (String × α) → String → Option α
  | [], _ => none
  | (k, v) :: rest, key => if k = key then some v else dictFind rest key

/-- Python dict update `d[k] = v`: replace the value in place when the key
is present, otherwise append the new key at the end. -/
def dictInsert {α : Type} : List (String × α) → String → α → List (String × α)
  | [], key, val => [(key, val)]
  | (k, v) :: rest, key, val =>
      if k = key then (key, val) :: rest else (k, v) :: dictInsert rest key val

/-- Python slice `l[-n:]`: the last `n` elements of `l` in order (the whole
list when it is shorter than `n`). -/
def lastN {α : Type} (n : Nat) (l : List α) : List α :=
  (l.reverse.take n).reverse

/-- The exception classes that can cross the oracle boundary.  All of them
are subclasses of Python Exception except keyboardInterrupt, which models
the BaseException family that a bare `except Exception` does not catch. -/
inductive PyExc where
  | socketTimeout
  | socketError
  | gaierror
  | sslError
  | certParseError
  | valueError
  | typeError
  | keyError
  | keyboardInterrupt
deriving DecidableEq, Repr

/-- Python `except Exception` catches exactly the Exception subclasses,
not the BaseException family. -/
def isExceptionClass : PyExc → Bool
  | .keyboardInterrupt => false
  | _ => true

/-- The failure classes tied to the certificate monitor I/O: connection
(socket errors, timeouts, resolution), handshake (ssl errors) and
certificate parsing. -/
def sslIOFailureClass : PyExc → Bool
  | .socketTimeout => true
  | .socketError => true
  | .gaierror => true
  | .sslError => true
  | .certParseError => true
  | _ => false

/-- Cache statistics as returned by `get_cache_stats`: total entries and
entries still fresh under the TTL. -/
structure CacheStats where
  size : Nat
  entries : Nat
deriving DecidableEq, Repr

/- ===================== LatencyMonitor ===================== -/

/-- State of `LatencyMonitor`: `_latencies` maps a host to its sample
history, `_last_check` is the single shared rate-limit timestamp
(`_check_interval` is the constant 5.0). -/
structure LatencyMonitor where
  latencies : List (String × List ℚ)
  lastCheck : ℚ
deriving DecidableEq, Repr

/-- A fresh `LatencyMonitor()`: empty history dict, `_last_check = 0`. -/
def LatencyMonitor.init : LatencyMonitor := ⟨[], 0⟩

/-- Method `LatencyMonitor.track_latency(host, port)`.  Here `now` is the value of
`time.time()` at entry and `meas` is what `measure_latency` would return
(`none` models a timeout or connection error, in which case the source
logs and records nothing).  The boolean is true when the method got past
the rate limiter and performed a measurement attempt. -/
def LatencyMonitor.track_latency (m : LatencyMonitor) (now : ℚ)
    (meas : Option ℚ) (host : String) : LatencyMonitor × Bool :=
  if now - m.lastCheck < 5 then
    (m, false)
  else
    match meas with
    | some latency =>
        ({ latencies :=
             dictInsert m.latencies host
               (lastN 100 (((dictFind m.latencies host).getD []) ++ [latency])),
           lastCheck := now }, true)
    | none => ({ m with lastCheck := now }, true)

/-- The min/max/avg record returned by `get_latency_stats`. -/
structure LatencyStats where
  min : ℚ
  max : ℚ
  avg : ℚ
deriving DecidableEq, Repr

/-- Method `LatencyMonitor.get_latency_stats(host)`: `none` when the host has no
(or an empty) history, otherwise `min`, `max` and the arithmetic mean of
the full retained history. -/
def LatencyMonitor.get_latency_stats (m : LatencyMonitor) (host : String) :
    Option LatencyStats :=
  match dictFind m.latencies host with
  | none => none
  | some [] => none
  | some (l :: ls) =>
      some ⟨ls.foldl min l, ls.foldl max l,
            (l :: ls).sum / ((l :: ls).length : ℚ)⟩

/-- One `track_latency` call for replaying a call sequence: the clock value
at entry, the measurement oracle, and the host argument. -/
structure TrackCall where
  t : ℚ
  meas : Option ℚ
  host : String

/-- Replay a sequence of `track_latency` calls from a starting state. -/
def runTrack (m : LatencyMonitor) (cs : List TrackCall) : LatencyMonitor :=
  cs.foldl (fun st c => (st.track_latency c.t c.meas c.host).1) m

/-- A run of calls for one host, each 5 seconds after the previous one
(so none is rate-limited) and each with a successful measurement. -/
def mkCalls (host : String) : ℚ → List ℚ → List TrackCall
  | _, [] => []
  | t0, v :: vs => ⟨t0 + 5, some v, host⟩ :: mkCalls host (t0 + 5) vs

/- ===================== DNSMonitor ===================== -/

/-- State of `DNSMonitor`: `_cache` maps a hostname to the resolved
addresses and the fetch timestamp (`_cache_ttl` is the constant 300). -/
structure DNSMonitor where
  cache : List (String × (List String × ℚ))
deriving DecidableEq, Repr

/-- TTL of the DNS cache (`_cache_ttl = 300`). -/
def dnsTTL : ℚ := 300

/-- The fresh-entry check at the top of `resolve`: the cached addresses
when the hostname has a cache entry with `now - timestamp < ttl`. -/
def DNSMonitor.freshEntry (m : DNSMonitor) (now : ℚ) (hostname : String) :
    Option (List String) :=
  match dictFind m.cache hostname with
  | some (ips, timestamp) => if now - timestamp < dnsTTL then some ips else none
  | none => none

/-- The lookup part of `resolve` (after the cache miss): `lookup` is what
`socket.gethostbyname_ex(hostname)[2]` would produce.  Only
`socket.gaierror` is caught and turned into `None`; any other exception
propagates. -/
def DNSMonitor.resolveLookup (m : DNSMonitor) (now : ℚ)
    (lookup : Except PyExc (List String)) (hostname : String) :
    Except PyExc (Option (List String) × DNSMonitor × Bool) :=
  match lookup with
  | .ok ips => .ok (some ips, ⟨dictInsert m.cache hostname (ips, now)⟩, true)
  | .error e => if e = .gaierror then .ok (none, m, true) else .error e

/-- Method `DNSMonitor.resolve(hostname)`.  Here `now` is `time.time()` and `lookup`
the resolution oracle.  The boolean is true when a resolution was actually
performed (cache miss or stale entry). -/
def DNSMonitor.resolve (m : DNSMonitor) (now : ℚ)
    (lookup : Except PyExc (List String)) (hostname : String) :
    Except PyExc (Option (List String) × DNSMonitor × Bool) :=
  match dictFind m.cache hostname with
  | some (ips, timestamp) =>
      if now - timestamp < dnsTTL then .ok (some ips, m, false)
      else m.resolveLookup now lookup hostname
  | none => m.resolveLookup now lookup hostname

/-- Method `DNSMonitor.get_cache_stats()`: total cache entries and entries still
fresh under the TTL at call time. -/
def DNSMonitor.get_cache_stats (m : DNSMonitor) (now : ℚ) : CacheStats :=
  ⟨m.cache.length,
   m.cache.countP (fun p => decide (now - p.2.2 < dnsTTL))⟩

/- ===================== SSLCertMonitor ===================== -/

/-- A parsed X.509 certificate as the monitor caches it: the subject and
issuer attributes the code extracts (absent attributes are `none`), the
validity bounds as timestamps (seconds), the serial number and the
version name.  The field `tzAware` records whether the validity datetimes
carry tzinfo: true for every certificate actually parsed by the
cryptography library, whose `not_valid_after_utc` attribute is a
timezone-aware UTC datetime (the attribute exists only in cryptography
versions where it is always aware); false only for naive mock objects
such as the ones the repository tests build with a plain
`datetime.now()`. -/
structure Cert where
  subjectCN : Option String
  subjectOrg : Option String
  issuerCN : Option String
  issuerOrg : Option String
  notBefore : ℚ
  notAfter : ℚ
  serialNumber : Nat
  version : String
  tzAware : Bool
deriving DecidableEq, Repr

/-- The dict `_get_cert_info` builds. -/
structure CertInfo where
  subjectCN : String
  subjectOrg : String
  issuerCN : String
  issuerOrg : String
  notBefore : ℚ
  notAfter : ℚ
  daysUntilExpiry : ℤ
  serialNumber : Nat
  version : String
deriving DecidableEq, Repr

/-- Helper `get_attr_value`: the attribute value, or the `"Unknown"` placeholder
when the attribute is absent. -/
def get_attr_value (attr : Option String) : String := attr.getD "Unknown"

/-- State of `SSLCertMonitor`: `_cache` maps a hostname to the parsed
certificate and the fetch timestamp (`_cache_ttl` is the constant 3600). -/
structure SSLCertMonitor where
  cache : List (String × (Cert × ℚ))
deriving DecidableEq, Repr

/-- TTL of the certificate cache (`_cache_ttl = 3600`). -/
def sslTTL : ℚ := 3600

/-- Method `SSLCertMonitor._get_cert_info(cert)` evaluated at read time `now`,
where `now = datetime.now()` is a naive local datetime.  The line
`cert.not_valid_after_utc - now` subtracts a naive datetime from an aware
one, which raises TypeError whenever the certificate datetimes are
timezone-aware, i.e. for every real parsed certificate; only for a naive
mock certificate does the subtraction go through and produce the info
dict, with `days_until_expiry` the floor of `(not_after - now)` in whole
days, matching Python timedelta `.days`. -/
def SSLCertMonitor.get_cert_info (cert : Cert) (now : ℚ) :
    Except PyExc CertInfo :=
  if cert.tzAware then .error .typeError
  else
    .ok
      { subjectCN := get_attr_value cert.subjectCN
        subjectOrg := get_attr_value cert.subjectOrg
        issuerCN := get_attr_value cert.issuerCN
        issuerOrg := get_attr_value cert.issuerOrg
        notBefore := cert.notBefore
        notAfter := cert.notAfter
        daysUntilExpiry := ⌊(cert.notAfter - now) / 86400⌋
        serialNumber := cert.serialNumber
        version := cert.version }

/-- The fresh-entry check at the top of `check_certificate`: the cached
certificate when the hostname has an entry with `now - timestamp < ttl`. -/
def SSLCertMonitor.freshEntry (m : SSLCertMonitor) (now : ℚ)
    (hostname : String) : Option Cert :=
  match dictFind m.cache hostname with
  | some (cert, timestamp) => if now - timestamp < sslTTL then some cert else none
  | none => none

/-- The fetch part of `check_certificate` (after the cache miss), still
under the `except Exception` handler: on a delivered certificate, cache it
with the current timestamp (the cache assignment happens before the
`_get_cert_info` call and is kept even when that call then raises) and
return the derived info; on an Exception-class failure, from the fetch or
from `_get_cert_info`, log and return `None`; the BaseException family
is not caught. -/
def SSLCertMonitor.fetchCertificate (m : SSLCertMonitor) (now : ℚ)
    (fetch : Except PyExc Cert) (hostname : String) :
    Except PyExc (Option CertInfo × SSLCertMonitor × Bool) :=
  match fetch with
  | .ok cert =>
      match SSLCertMonitor.get_cert_info cert now with
      | .ok info =>
          .ok (some info, ⟨dictInsert m.cache hostname (cert, now)⟩, true)
      | .error e =>
          if isExceptionClass e then
            .ok (none, ⟨dictInsert m.cache hostname (cert, now)⟩, true)
          else .error e
  | .error e =>
      if isExceptionClass e then .ok (none, m, true) else .error e

/-- Method `SSLCertMonitor.check_certificate(hostname, port)`.  Here `now` is the read
time and `fetch` is the connect-handshake-parse oracle: the certificate the
TLS layer would deliver or the exception it would raise.  The whole body is
wrapped in `except Exception`, so every Exception-class failure — from the
fetch or from `_get_cert_info` (in particular the TypeError of the
aware-minus-naive subtraction on a cache hit) — is logged and converted to
`None`; only the BaseException family escapes.  The boolean is true when a
connection was opened (cache miss or stale entry). -/
def SSLCertMonitor.check_certificate (m : SSLCertMonitor) (now : ℚ)
    (fetch : Except PyExc Cert) (hostname : String) :
    Except PyExc (Option CertInfo × SSLCertMonitor × Bool) :=
  match dictFind m.cache hostname with
  | some (cert, timestamp) =>
      if now - timestamp < sslTTL then
        match SSLCertMonitor.get_cert_info cert now with
        | .ok info => .ok (some info, m, false)
        | .error e =>
            if isExceptionClass e then .ok (none, m, false) else .error e
      else m.fetchCertificate now fetch hostname
  | none => m.fetchCertificate now fetch hostname

/-- Method `SSLCertMonitor.get_cache_stats()`: total cache entries and entries
still fresh under the TTL at call time. -/
def SSLCertMonitor.get_cache_stats (m : SSLCertMonitor) (now : ℚ) :
    CacheStats :=
  ⟨m.cache.length,
   m.cache.countP (fun p => decide (now - p.2.2 < sslTTL))⟩

/- ===================== NetworkMetrics ===================== -/

/-- The per-interface counter record `get_interface_stats` returns. -/
structure InterfaceStats where
  bytes_sent : Nat
  bytes_recv : Nat
  packets_sent : Nat
  packets_recv : Nat
  errin : Nat
  errout : Nat
  dropin : Nat
  dropout : Nat
deriving DecidableEq, Repr

/-- The all-zero record used when an interface lacks counter support. -/
def zeroStats : InterfaceStats := ⟨0, 0, 0, 0, 0, 0, 0, 0⟩

/-- What `psutil` reports for one interface: each counter attribute is
present (`some`) or absent (`none`, an access raising AttributeError). -/
structure RawCounters where
  bytes_sent : Option Nat
  bytes_recv : Option Nat
  packets_sent : Option Nat
  packets_recv : Option Nat
  errin : Option Nat
  errout : Option Nat
  dropin : Option Nat
  dropout : Option Nat
deriving DecidableEq, Repr

/-- The per-interface body of `get_interface_stats`: build the counter
dict, and on any AttributeError fall back to the all-zero record. -/
def readCounters (a : RawCounters) : InterfaceStats :=
  match a.bytes_sent, a.bytes_recv, a.packets_sent, a.packets_recv,
        a.errin, a.errout, a.dropin, a.dropout with
  | some v1, some v2, some v3, some v4, some v5, some v6, some v7, some v8 =>
      ⟨v1, v2, v3, v4, v5, v6, v7, v8⟩
  | _, _, _, _, _, _, _, _ => zeroStats

/-- Method `NetworkMetrics.get_interface_stats()` over the interface enumeration
the OS would report: one record per interface, in order. -/
def get_interface_stats (ifaces : List (String × RawCounters)) :
    List (String × InterfaceStats) :=
  ifaces.map (fun p => (p.1, readCounters p.2))

/- ===================== dictionary and slice lemmas ===================== -/

theorem dictFind_dictInsert_self {α : Type} (d : List (String × α))
    (k : String) (v : α) : dictFind (dictInsert d k v) k = some v := by
  induction d with
  | nil => simp [dictInsert, dictFind]
  | cons p rest ih =>
    obtain ⟨k0, v0⟩ := p
    by_cases hk : k0 = k
    · simp [dictInsert, dictFind, hk]
    · simp [dictInsert, dictFind, hk, ih]

theorem mem_dictInsert {α : Type} {d : List (String × α)} {k : String}
    {v : α} {p : String × α} (hp : p ∈ dictInsert d k v) :
    p = (k, v) ∨ p ∈ d := by
  induction d with
  | nil => simpa [dictInsert] using hp
  | cons q rest ih =>
    obtain ⟨k0, v0⟩ := q
    by_cases hk : k0 = k
    · simp only [dictInsert, if_pos hk] at hp
      rcases List.mem_cons.mp hp with h | h
      · exact Or.inl h
      · exact Or.inr (List.mem_cons_of_mem _ h)
    · simp only [dictInsert, if_neg hk] at hp
      rcases List.mem_cons.mp hp with h | h
      · exact Or.inr (by simp [h])
      · rcases ih h with h1 | h1
        · exact Or.inl h1
        · exact Or.inr (List.mem_cons_of_mem _ h1)

theorem length_lastN {α : Type} (n : Nat) (l : List α) :
    (lastN n l).length = min n l.length := by
  simp [lastN]

theorem lastN_eq_drop {α : Type} (n : Nat) (l : List α) :
    lastN n l = l.drop (l.length - n) := by
  unfold lastN
  rw [List.reverse_take]
  simp

theorem lastN_append_lastN {α : Type} (n : Nat) (xs ys : List α) :
    lastN n (lastN n xs ++ ys) = lastN n (xs ++ ys) := by
  unfold lastN
  rw [List.reverse_append, List.reverse_reverse, List.reverse_append]
  rw [List.take_append_eq_append_take, List.take_append_eq_append_take,
      List.take_take]
  rw [Nat.min_eq_left (Nat.sub_le n ys.reverse.length)]

/- ===================== fold min/max lemmas ===================== -/

theorem foldl_min_le_init {α : Type} [LinearOrder α] (ls : List α) (a : α) :
    ls.foldl min a ≤ a := by
  induction ls generalizing a with
  | nil => simp
  | cons b bs ih =>
    exact le_trans (ih (min a b)) (min_le_left a b)

theorem foldl_min_le_mem {α : Type} [LinearOrder α] {ls : List α} (a : α)
    {x : α} (hx : x ∈ ls) : ls.foldl min a ≤ x := by
  induction ls generalizing a with
  | nil => cases hx
  | cons b bs ih =>
    rcases List.mem_cons.mp hx with h | h
    · subst h
      exact le_trans (foldl_min_le_init bs (min a x)) (min_le_right a x)
    · exact ih (min a b) h

theorem foldl_min_mem {α : Type} [LinearOrder α] (ls : List α) (a : α) :
    ls.foldl min a = a ∨ ls.foldl min a ∈ ls := by
  induction ls generalizing a with
  | nil => exact Or.inl rfl
  | cons b bs ih =>
    rcases ih (min a b) with h | h
    · rw [List.foldl_cons, h]
      rcases le_total a b with hab | hab
      · exact Or.inl (min_eq_left hab)
      · exact Or.inr (by rw [min_eq_right hab]; exact List.mem_cons_self b bs)
    · exact Or.inr (List.mem_cons_of_mem _ h)

theorem le_foldl_max_init {α : Type} [LinearOrder α] (ls : List α) (a : α) :
    a ≤ ls.foldl max a := by
  induction ls generalizing a with
  | nil => simp
  | cons b bs ih =>
    exact le_trans (le_max_left a b) (ih (max a b))

theorem mem_le_foldl_max {α : Type} [LinearOrder α] {ls : List α} (a : α)
    {x : α} (hx : x ∈ ls) : x ≤ ls.foldl max a := by
  induction ls generalizing a with
  | nil => cases hx
  | cons b bs ih =>
    rcases List.mem_cons.mp hx with h | h
    · subst h
      exact le_trans (le_max_right a x) (le_foldl_max_init bs (max a x))
    · exact ih (max a b) h

theorem foldl_max_mem {α : Type} [LinearOrder α] (ls : List α) (a : α) :
    ls.foldl max a = a ∨ ls.foldl max a ∈ ls := by
  induction ls generalizing a with
  | nil => exact Or.inl rfl
  | cons b bs ih =>
    rcases ih (max a b) with h | h
    · rw [List.foldl_cons, h]
      rcases le_total a b with hab | hab
      · exact Or.inr (by rw [max_eq_right hab]; exact List.mem_cons_self b bs)
      · exact Or.inl (max_eq_left hab)
    · exact Or.inr (List.mem_cons_of_mem _ h)

theorem lastN_of_length_le {α : Type} {n : Nat} {l : List α}
    (h : l.length ≤ n) : lastN n l = l := by
  unfold lastN
  rw [List.take_of_length_le (by simpa using h), List.reverse_reverse]

/- ===================== LatencyMonitor lemmas ===================== -/

/-- The effective history of a host: its stored sample list, or the empty
list when the host has never been tracked. -/
def histOf (m : LatencyMonitor) (host : String) : List ℚ :=
  (dictFind m.latencies host).getD []

theorem track_latency_length_le (m : LatencyMonitor) (now : ℚ)
    (meas : Option ℚ) (host : String)
    (hm : ∀ p ∈ m.latencies, p.2.length ≤ 100) :
    ∀ p ∈ ((m.track_latency now meas host).1).latencies, p.2.length ≤ 100 := by
  intro p hp
  unfold LatencyMonitor.track_latency at hp
  split at hp
  · exact hm p hp
  · cases meas with
    | none => exact hm p hp
    | some l =>
      simp only at hp
      rcases mem_dictInsert hp with h | h
      · rw [h]
        simpa using (length_lastN 100 _ ▸ Nat.min_le_left 100 _)
      · exact hm p h

theorem runTrack_length_le (cs : List TrackCall) :
    ∀ (m : LatencyMonitor), (∀ p ∈ m.latencies, p.2.length ≤ 100) →
      ∀ p ∈ (runTrack m cs).latencies, p.2.length ≤ 100 := by
  induction cs with
  | nil => intro m hm; exact hm
  | cons c rest ih =>
    intro m hm
    exact ih _ (track_latency_length_le m c.t c.meas c.host hm)

theorem track_executed_lastCheck {m m' : LatencyMonitor} {now : ℚ}
    {meas : Option ℚ} {host : String}
    (h : m.track_latency now meas host = (m', true)) :
    m'.lastCheck = now := by
  unfold LatencyMonitor.track_latency at h
  split at h
  · simp at h
  · cases meas with
    | none =>
      have := (Prod.mk.injEq _ _ _ _).mp h
      rw [← this.1]
    | some l =>
      have := (Prod.mk.injEq _ _ _ _).mp h
      rw [← this.1]

theorem runTrack_mkCalls_hist (vs : List ℚ) :
    ∀ (m : LatencyMonitor) (host : String), (histOf m host).length ≤ 100 →
      histOf (runTrack m (mkCalls host m.lastCheck vs)) host =
        lastN 100 (histOf m host ++ vs) := by
  induction vs with
  | nil =>
    intro m host hlen
    simp only [mkCalls, runTrack, List.foldl_nil, List.append_nil]
    rw [lastN_of_length_le hlen]
  | cons v vs ih =>
    intro m host hlen
    simp only [mkCalls, runTrack, List.foldl_cons]
    have hcond : ¬(m.lastCheck + 5 - m.lastCheck < 5) := by
      simp
    have hstep :
        (m.track_latency (m.lastCheck + 5) (some v) host).1 =
          (⟨dictInsert m.latencies host (lastN 100 (histOf m host ++ [v])),
            m.lastCheck + 5⟩ : LatencyMonitor) := by
      unfold LatencyMonitor.track_latency
      rw [if_neg hcond]
      rfl
    rw [hstep]
    have hlen1 :
        (histOf ⟨dictInsert m.latencies host
            (lastN 100 (histOf m host ++ [v])), m.lastCheck + 5⟩ host).length
          ≤ 100 := by
      unfold histOf
      rw [dictFind_dictInsert_self]
      simpa using (length_lastN 100 _ ▸ Nat.min_le_left 100 _)
    have hrec := ih ⟨dictInsert m.latencies host
        (lastN 100 (histOf m host ++ [v])), m.lastCheck + 5⟩ host hlen1
    simp only [runTrack] at hrec
    rw [hrec]
    unfold histOf
    rw [dictFind_dictInsert_self]
    simp only [Option.getD_some]
    rw [lastN_append_lastN]
    congr 1
    simp

/- ===================== Claim C4 ===================== -/

/-- C4: for every sequence of `track_latency` calls from a fresh monitor,
no host history ever exceeds 100 samples; and after a run of more than 100
non-rate-limited successful appends for a host, the stored history is
exactly the most recent 100 measured values in measurement order (the
oldest values are evicted first). -/
theorem claim_C4_history_bounded_rolling :
    (∀ (cs : List TrackCall) (p : String × List ℚ),
        p ∈ (runTrack LatencyMonitor.init cs).latencies → p.2.length ≤ 100) ∧
    (∀ (host : String) (vs : List ℚ), 100 < vs.length →
        dictFind (runTrack LatencyMonitor.init (mkCalls host 0 vs)).latencies
            host = some (vs.drop (vs.length - 100)) ∧
        (vs.drop (vs.length - 100)).length = 100) := by
  constructor
  · intro cs p hp
    exact runTrack_length_le cs LatencyMonitor.init
      (by simp [LatencyMonitor.init]) p hp
  · intro host vs hlen
    have h0 : (histOf LatencyMonitor.init host).length ≤ 100 := by
      simp [histOf, LatencyMonitor.init, dictFind]
    have hh := runTrack_mkCalls_hist vs LatencyMonitor.init host h0
    have hinit : histOf LatencyMonitor.init host = [] := by
      simp [histOf, LatencyMonitor.init, dictFind]
    have hlc : LatencyMonitor.init.lastCheck = 0 := rfl
    rw [hlc, hinit, List.nil_append, lastN_eq_drop] at hh
    have hdroplen : (vs.drop (vs.length - 100)).length = 100 := by
      rw [List.length_drop, Nat.sub_sub_self hlen.le]
    refine ⟨?_, hdroplen⟩
    unfold histOf at hh
    rcases hfind : dictFind
        (runTrack LatencyMonitor.init (mkCalls host 0 vs)).latencies host
      with _ | h
    · rw [hfind] at hh
      simp only [Option.getD_none] at hh
      have := congrArg List.length hh
      rw [hdroplen] at this
      simp at this
    · rw [hfind] at hh
      simp only [Option.getD_some] at hh
      rw [hh]

/-- Witness for C4 at a concrete run: one successful call stays within the
bound, and a run of 101 successful calls keeps exactly the last 100. -/
theorem claim_C4_witness :
    (("h", [(1 : ℚ)]) ∈
        (runTrack LatencyMonitor.init [⟨6, some 1, "h"⟩]).latencies ∧
      ([(1 : ℚ)]).length ≤ 100) ∧
    (100 < (List.replicate 101 (1 : ℚ)).length ∧
      dictFind (runTrack LatencyMonitor.init
            (mkCalls "h" 0 (List.replicate 101 (1 : ℚ)))).latencies "h" =
        some ((List.replicate 101 (1 : ℚ)).drop
          ((List.replicate 101 (1 : ℚ)).length - 100)) ∧
      ((List.replicate 101 (1 : ℚ)).drop
          ((List.replicate 101 (1 : ℚ)).length - 100)).length = 100) :=
  ⟨⟨by norm_num [runTrack, LatencyMonitor.track_latency, LatencyMonitor.init,
        dictInsert, dictFind, lastN],
    claim_C4_history_bounded_rolling.1 [⟨6, some 1, "h"⟩] ("h", [(1 : ℚ)])
      (by norm_num [runTrack, LatencyMonitor.track_latency,
        LatencyMonitor.init, dictInsert, dictFind, lastN])⟩,
   ⟨by simp, claim_C4_history_bounded_rolling.2 "h"
      (List.replicate 101 (1 : ℚ)) (by simp)⟩⟩

/- ===================== Claim C5 ===================== -/

/-- C5: the rate-limit timestamp is shared across hosts: when a
`track_latency` call for host A at time `t` got past the rate limiter,
any `track_latency` call for any host B (equal to A or not) strictly less
than 5 seconds later is a no-op: no measurement is attempted and the whole
monitor state, hence every host history, is unchanged. -/
theorem claim_C5_shared_rate_limit (m m' : LatencyMonitor) (t t' : ℚ)
    (measA measB : Option ℚ) (hostA hostB : String)
    (hexec : m.track_latency t measA hostA = (m', true))
    (hlt : t' - t < 5) :
    m'.track_latency t' measB hostB = (m', false) := by
  have hlc : m'.lastCheck = t := track_executed_lastCheck hexec
  unfold LatencyMonitor.track_latency
  rw [hlc, if_pos hlt]

/-- Witness for C5: tracking host a at time 6 then host b at time 7
suppresses the second call and leaves the state unchanged. -/
theorem claim_C5_witness :
    LatencyMonitor.track_latency LatencyMonitor.init 6 none "a" =
      ((⟨[], 6⟩ : LatencyMonitor), true) ∧
    (7 : ℚ) - 6 < 5 ∧
    LatencyMonitor.track_latency ⟨[], 6⟩ 7 (some 2) "b" =
      ((⟨[], 6⟩ : LatencyMonitor), false) :=
  ⟨by norm_num [LatencyMonitor.track_latency, LatencyMonitor.init],
   by norm_num,
   claim_C5_shared_rate_limit LatencyMonitor.init ⟨[], 6⟩ 6 7
     none (some 2) "a" "b"
     (by norm_num [LatencyMonitor.track_latency, LatencyMonitor.init])
     (by norm_num)⟩

/- ===================== Claim C10 ===================== -/

/-- C10: when a non-suppressed `track_latency` call has a failed
measurement, the histories are left unchanged but the shared rate-limit
timestamp still advances to the call time, so any track call for any host
strictly within the next 5 seconds is a no-op even though no sample was
recorded. -/
theorem claim_C10_failed_measure_advances_timer (m : LatencyMonitor)
    (now : ℚ) (host : String) (hnot : ¬(now - m.lastCheck < 5)) :
    m.track_latency now none host =
      ((⟨m.latencies, now⟩ : LatencyMonitor), true) ∧
    (∀ (host2 : String) (meas : Option ℚ) (t' : ℚ), t' - now < 5 →
      LatencyMonitor.track_latency ⟨m.latencies, now⟩ t' meas host2 =
        ((⟨m.latencies, now⟩ : LatencyMonitor), false)) := by
  constructor
  · unfold LatencyMonitor.track_latency
    rw [if_neg hnot]
  · intro host2 meas t' hlt
    unfold LatencyMonitor.track_latency
    rw [if_pos hlt]

/-- Witness for C10: a failed measurement at time 6 records nothing but
advances the timer, so a call for another host at time 8 is suppressed. -/
theorem claim_C10_witness :
    ¬((6 : ℚ) - LatencyMonitor.init.lastCheck < 5) ∧
    LatencyMonitor.track_latency LatencyMonitor.init 6 none "a" =
      ((⟨[], 6⟩ : LatencyMonitor), true) ∧
    LatencyMonitor.track_latency ⟨[], 6⟩ 8 (some 1) "b" =
      ((⟨[], 6⟩ : LatencyMonitor), false) :=
  ⟨by norm_num [LatencyMonitor.init],
   (claim_C10_failed_measure_advances_timer LatencyMonitor.init 6 "a"
      (by norm_num [LatencyMonitor.init])).1,
   (claim_C10_failed_measure_advances_timer LatencyMonitor.init 6 "a"
      (by norm_num [LatencyMonitor.init])).2 "b" (some 1) 8 (by norm_num)⟩

/- ===================== Claim C7 ===================== -/

/-- C7: `get_latency_stats` returns nothing exactly when the host has no
recorded samples (no entry, or an empty history); otherwise it returns the
exact minimum, the exact maximum and the exact arithmetic mean of the full
retained history; in particular for the samples [0.1, 0.2, 0.3] it returns
min 0.1, max 0.3 and mean 0.2. -/
theorem claim_C7_stats_exact (m : LatencyMonitor) (host : String) :
    (m.get_latency_stats host = none ↔
      dictFind m.latencies host = none ∨
        dictFind m.latencies host = some []) ∧
    (∀ (hist : List ℚ) (s : LatencyStats),
      dictFind m.latencies host = some hist →
      m.get_latency_stats host = some s →
      (s.min ∈ hist ∧ ∀ x ∈ hist, s.min ≤ x) ∧
      (s.max ∈ hist ∧ ∀ x ∈ hist, x ≤ s.max) ∧
      s.avg * (hist.length : ℚ) = hist.sum) ∧
    LatencyMonitor.get_latency_stats
        ⟨[("s", [1/10, 2/10, 3/10])], 0⟩ "s" =
      some ⟨1/10, 3/10, 1/5⟩ := by
  refine ⟨?_, ?_, ?_⟩
  · unfold LatencyMonitor.get_latency_stats
    rcases hf : dictFind m.latencies host with _ | hist
    · simp
    · rcases hist with _ | ⟨l, ls⟩ <;> simp
  · intro hist s hf hs
    unfold LatencyMonitor.get_latency_stats at hs
    rw [hf] at hs
    rcases hist with _ | ⟨l, ls⟩
    · simp at hs
    · simp only [Option.some.injEq] at hs
      subst hs
      refine ⟨⟨?_, ?_⟩, ⟨?_, ?_⟩, ?_⟩
      · rcases foldl_min_mem ls l with h | h
        · rw [h]; exact List.mem_cons_self l ls
        · exact List.mem_cons_of_mem l h
      · intro x hx
        rcases List.mem_cons.mp hx with h | h
        · rw [h]; exact foldl_min_le_init ls l
        · exact foldl_min_le_mem l h
      · rcases foldl_max_mem ls l with h | h
        · rw [h]; exact List.mem_cons_self l ls
        · exact List.mem_cons_of_mem l h
      · intro x hx
        rcases List.mem_cons.mp hx with h | h
        · rw [h]; exact le_foldl_max_init ls l
        · exact mem_le_foldl_max l h
      · have hne : (((l :: ls).length : ℚ)) ≠ 0 := by
          rw [Nat.cast_ne_zero]
          simp
        exact div_mul_cancel₀ _ hne
  · norm_num [LatencyMonitor.get_latency_stats, dictFind]

/-- Witness for C7 at a concrete monitor: one host with history
[0.1, 0.2, 0.3], whose stats are min 0.1, max 0.3, mean 0.2. -/
theorem claim_C7_witness :
    dictFind (⟨[("s", [1/10, 2/10, 3/10])], 0⟩ :
        LatencyMonitor).latencies "s" = some [1/10, 2/10, 3/10] ∧
    (((1:ℚ)/10 ∈ [(1:ℚ)/10, 2/10, 3/10] ∧
        ∀ x ∈ [(1:ℚ)/10, 2/10, 3/10], 1/10 ≤ x) ∧
      ((3:ℚ)/10 ∈ [(1:ℚ)/10, 2/10, 3/10] ∧
        ∀ x ∈ [(1:ℚ)/10, 2/10, 3/10], x ≤ 3/10) ∧
      ((1:ℚ)/5) * (([(1:ℚ)/10, 2/10, 3/10]).length : ℚ) =
        ([(1:ℚ)/10, 2/10, 3/10]).sum) :=
  ⟨by norm_num [dictFind],
   (claim_C7_stats_exact ⟨[("s", [1/10, 2/10, 3/10])], 0⟩ "s").2.1
     [1/10, 2/10, 3/10] ⟨1/10, 3/10, 1/5⟩
     (by norm_num [dictFind])
     (by exact (claim_C7_stats_exact ⟨[("s", [1/10, 2/10, 3/10])], 0⟩
        "s").2.2)⟩

/- ===================== DNS lemmas and claims ===================== -/

theorem resolve_success_entry {m m' : DNSMonitor} {now : ℚ}
    {lk : Except PyExc (List String)} {hn : String} {ips : List String}
    {b : Bool} (h : m.resolve now lk hn = .ok (some ips, m', b)) :
    ∃ ts, dictFind m'.cache hn = some (ips, ts) := by
  unfold DNSMonitor.resolve at h
  split at h
  case _ ips1 ts1 hfind =>
    split at h
    · simp only [Except.ok.injEq, Prod.mk.injEq, Option.some.injEq] at h
      obtain ⟨h1, h2, h3⟩ := h
      exact ⟨ts1, by rw [← h2, hfind, h1]⟩
    · unfold DNSMonitor.resolveLookup at h
      split at h
      case _ l heq =>
        simp only [Except.ok.injEq, Prod.mk.injEq, Option.some.injEq] at h
        obtain ⟨h1, h2, h3⟩ := h
        refine ⟨now, ?_⟩
        rw [← h2]
        simp only []
        rw [dictFind_dictInsert_self, h1]
      case _ e heq =>
        split at h
        · simp at h
        · simp at h
  case _ hfind =>
    unfold DNSMonitor.resolveLookup at h
    split at h
    case _ l heq =>
      simp only [Except.ok.injEq, Prod.mk.injEq, Option.some.injEq] at h
      obtain ⟨h1, h2, h3⟩ := h
      refine ⟨now, ?_⟩
      rw [← h2]
      simp only []
      rw [dictFind_dictInsert_self, h1]
    case _ e heq =>
      split at h
      · simp at h
      · simp at h

/- ===================== Claim C3 ===================== -/

/-- C3: when `resolve(h)` succeeds at time `t`, the resulting cache holds
the returned addresses for `h`, and a second `resolve(h)` at any time `t2`
still inside the TTL window of that entry (`t2 - fetched_at < 300`)
returns the identical address list from the cache, leaves the state
unchanged, and performs no second resolution attempt (the lookup oracle of
the second call is arbitrary and unused). -/
theorem claim_C3_dns_cached_within_ttl (m m' : DNSMonitor) (t t2 : ℚ)
    (lk lk2 : Except PyExc (List String)) (hn : String)
    (ips ips0 : List String) (ts : ℚ) (b : Bool)
    (hsucc : m.resolve t lk hn = .ok (some ips, m', b))
    (hentry : dictFind m'.cache hn = some (ips0, ts))
    (hfresh : t2 - ts < 300) :
    ips0 = ips ∧ m'.resolve t2 lk2 hn = .ok (some ips, m', false) := by
  obtain ⟨ts1, hts⟩ := resolve_success_entry hsucc
  rw [hts] at hentry
  simp only [Option.some.injEq, Prod.mk.injEq] at hentry
  obtain ⟨hips, hts2⟩ := hentry
  refine ⟨hips.symm, ?_⟩
  unfold DNSMonitor.resolve
  rw [hts]
  simp only []
  have hfresh1 : t2 - ts1 < dnsTTL := by rw [hts2]; exact hfresh
  rw [if_pos hfresh1]

/-- Witness for C3: a fresh monitor resolves host a at time 0 caching the
answer, and a second call at time 100 with a poisoned oracle returns the
cached addresses without resolving. -/
theorem claim_C3_witness :
    DNSMonitor.resolve ⟨[]⟩ 0 (.ok ["1.2.3.4"]) "a" =
      .ok (some ["1.2.3.4"], ⟨[("a", (["1.2.3.4"], 0))]⟩, true) ∧
    dictFind (⟨[("a", (["1.2.3.4"], 0))]⟩ : DNSMonitor).cache "a" =
      some (["1.2.3.4"], 0) ∧
    (100 : ℚ) - 0 < 300 ∧
    (["1.2.3.4"] = ["1.2.3.4"] ∧
      DNSMonitor.resolve ⟨[("a", (["1.2.3.4"], 0))]⟩ 100 (.error .gaierror)
          "a" =
        .ok (some ["1.2.3.4"], ⟨[("a", (["1.2.3.4"], 0))]⟩, false)) :=
  ⟨rfl, rfl, by norm_num,
   claim_C3_dns_cached_within_ttl ⟨[]⟩ ⟨[("a", (["1.2.3.4"], 0))]⟩ 0 100
     (.ok ["1.2.3.4"]) (.error .gaierror) "a" ["1.2.3.4"] ["1.2.3.4"] 0 true
     rfl rfl (by norm_num)⟩

/- ===================== Claim C6 ===================== -/

/-- C6: when `resolve` actually attempts a resolution (no fresh cache
entry for the hostname) and the resolution raises `socket.gaierror`, the
call returns nothing rather than raising and returns the monitor state
completely unmodified: nothing is cached for the failure, the cache size
and stats are unchanged, and any pre-existing stale entry stays in
place. -/
theorem claim_C6_dns_error_leaves_cache (m : DNSMonitor) (now : ℚ)
    (hn : String) (hstale : m.freshEntry now hn = none) :
    m.resolve now (.error .gaierror) hn = .ok (none, m, true) ∧
    (∀ t, m.get_cache_stats t = m.get_cache_stats t) := by
  refine ⟨?_, fun t => rfl⟩
  unfold DNSMonitor.resolve
  unfold DNSMonitor.freshEntry at hstale
  split
  case _ ips1 ts1 hfind =>
    rw [hfind] at hstale
    simp only [] at hstale
    split at hstale
    next hc => simp at hstale
    next hc => rw [if_neg hc]; rfl
  case _ hfind => rfl

/-- Witness for C6: a monitor holding one stale entry for host a, queried
at time 400; the resolution error returns nothing and the stale entry
is untouched. -/
theorem claim_C6_witness :
    DNSMonitor.freshEntry ⟨[("a", (["1.2.3.4"], 0))]⟩ 400 "a" = none ∧
    DNSMonitor.resolve ⟨[("a", (["1.2.3.4"], 0))]⟩ 400 (.error .gaierror)
        "a" =
      .ok (none, ⟨[("a", (["1.2.3.4"], 0))]⟩, true) :=
  ⟨by norm_num [DNSMonitor.freshEntry, dictFind, dnsTTL],
   (claim_C6_dns_error_leaves_cache ⟨[("a", (["1.2.3.4"], 0))]⟩ 400 "a"
      (by norm_num [DNSMonitor.freshEntry, dictFind, dnsTTL])).1⟩

/- ===================== Claim C1 ===================== -/

/-- C1 describes the intent but the code has a bug: on a fresh cache hit
`check_certificate` does try to recompute `days_until_expiry` from the
stored certificate and the read time without opening a connection, but
`_get_cert_info` subtracts the naive `datetime.now()` from the
timezone-aware `not_valid_after_utc`, which raises TypeError, and the bare
`except Exception` converts it to the nothing result.  At the failing
input — a fresh hit on a real (timezone-aware) certificate whose
not_after is exactly 365 days after the read — the call returns nothing
with no connection opened, never the info with `days_until_expiry` in
[364, 365] that the claim, the spec and the repository tests describe.
Only for a naive mock certificate (like the test mocks built from a plain
`datetime.now()`) does the hit return the recomputed info, whose
`days_until_expiry` is then 365, inside [364, 365]. -/
theorem claim_C1_cert_cache_hit_typeerror :
    SSLCertMonitor.get_cert_info
        ⟨none, none, none, none, 0, 365 * 86400, 1, "v3", true⟩ 0 =
      .error .typeError ∧
    SSLCertMonitor.check_certificate
        ⟨[("e", (⟨none, none, none, none, 0, 365 * 86400, 1, "v3", true⟩,
          0))]⟩ 0 (.error .keyError) "e" =
      .ok (none,
        ⟨[("e", (⟨none, none, none, none, 0, 365 * 86400, 1, "v3", true⟩,
          0))]⟩, false) ∧
    (∃ info : CertInfo,
      SSLCertMonitor.check_certificate
          ⟨[("e", (⟨none, none, none, none, 0, 365 * 86400, 1, "v3",
            false⟩, 0))]⟩ 0 (.error .keyError) "e" =
        .ok (some info,
          ⟨[("e", (⟨none, none, none, none, 0, 365 * 86400, 1, "v3",
            false⟩, 0))]⟩, false) ∧
      info.daysUntilExpiry = 365 ∧
      364 ≤ info.daysUntilExpiry ∧ info.daysUntilExpiry ≤ 365) := by
  have hfl : ⌊((365 * 86400 : ℚ) - 0) / 86400⌋ = (365 : ℤ) := by
    have h1 : ((365 * 86400 : ℚ) - 0) / 86400 = ((365 : ℤ) : ℚ) := by
      norm_num
    rw [h1, Int.floor_intCast]
  refine ⟨rfl, ?_, ?_⟩
  · norm_num [SSLCertMonitor.check_certificate, dictFind, sslTTL,
      SSLCertMonitor.get_cert_info, isExceptionClass]
  · refine ⟨⟨"Unknown", "Unknown", "Unknown", "Unknown", 0, 365 * 86400,
      365, 1, "v3"⟩, ?_, rfl, by norm_num, by norm_num⟩
    norm_num [SSLCertMonitor.check_certificate, dictFind, sslTTL,
      SSLCertMonitor.get_cert_info, get_attr_value, hfl]

/- ===================== Claim C2 ===================== -/

/-- C2 as stated is false on the code; this is the amended claim:
`check_certificate` wraps its whole body in `except Exception`, so every
Exception-class failure raised during connection, handshake or parsing —
whether or not it is one of the failure classes tied to the monitor I/O —
is caught, logged and converted to the nothing result with the cache
unchanged; only the BaseException family is not swallowed. -/
theorem claim_C2_swallows_all_exceptions (m : SSLCertMonitor) (now : ℚ)
    (hn : String) (e : PyExc)
    (hstale : m.freshEntry now hn = none)
    (hexc : isExceptionClass e = true) :
    m.check_certificate now (.error e) hn = .ok (none, m, true) := by
  unfold SSLCertMonitor.check_certificate
  unfold SSLCertMonitor.freshEntry at hstale
  split
  case _ cert1 ts1 hfind =>
    rw [hfind] at hstale
    simp only [] at hstale
    split at hstale
    next hc => simp at hstale
    next hc =>
      rw [if_neg hc]
      unfold SSLCertMonitor.fetchCertificate
      simp only []
      rw [if_pos hexc]
  case _ hfind =>
    unfold SSLCertMonitor.fetchCertificate
    simp only []
    rw [if_pos hexc]

/-- Counterexample to C2 as stated: a KeyError is not one of the failure
classes tied to the monitor I/O, yet a `check_certificate` call whose body
raises it returns the nothing result instead of letting it propagate. -/
theorem claim_C2_counterexample :
    sslIOFailureClass .keyError = false ∧
    isExceptionClass .keyError = true ∧
    SSLCertMonitor.check_certificate ⟨[]⟩ 0 (.error .keyError) "h" =
      .ok (none, ⟨[]⟩, true) ∧
    SSLCertMonitor.check_certificate ⟨[]⟩ 0 (.error .keyError) "h" ≠
      .error .keyError := by
  refine ⟨rfl, rfl, rfl, ?_⟩
  intro h
  rw [show SSLCertMonitor.check_certificate ⟨[]⟩ 0 (.error .keyError) "h" =
      .ok (none, ⟨[]⟩, true) from rfl] at h
  exact Except.noConfusion h

/-- Witness for the amended C2: an empty-cache monitor whose fetch raises
ValueError (an Exception subclass) returns nothing. -/
theorem claim_C2_witness :
    SSLCertMonitor.freshEntry ⟨[]⟩ 0 "h" = none ∧
    isExceptionClass .valueError = true ∧
    SSLCertMonitor.check_certificate ⟨[]⟩ 0 (.error .valueError) "h" =
      .ok (none, ⟨[]⟩, true) :=
  ⟨rfl, rfl, claim_C2_swallows_all_exceptions ⟨[]⟩ 0 "h" .valueError rfl rfl⟩

/- ===================== Claim C8 ===================== -/

theorem readCounters_eq_zero {a : RawCounters}
    (h : a.bytes_sent = none ∨ a.bytes_recv = none ∨ a.packets_sent = none ∨
      a.packets_recv = none ∨ a.errin = none ∨ a.errout = none ∨
      a.dropin = none ∨ a.dropout = none) :
    readCounters a = zeroStats := by
  obtain ⟨f1, f2, f3, f4, f5, f6, f7, f8⟩ := a
  rcases f1 with _ | v1 <;> rcases f2 with _ | v2 <;> rcases f3 with _ | v3 <;>
    rcases f4 with _ | v4 <;> rcases f5 with _ | v5 <;>
    rcases f6 with _ | v6 <;> rcases f7 with _ | v7 <;>
    rcases f8 with _ | v8 <;> first | rfl | simp_all

/-- C8: `get_interface_stats` never fails because of one interface: the
call returns one record per enumerated interface; an interface with an
absent counter attribute yields the all-zero record, while every interface
with full counter support keeps its reported values. -/
theorem claim_C8_interface_zero_default
    (ifaces : List (String × RawCounters)) :
    (get_interface_stats ifaces).length = ifaces.length ∧
    ∀ (name : String) (a : RawCounters), (name, a) ∈ ifaces →
      ((a.bytes_sent = none ∨ a.bytes_recv = none ∨ a.packets_sent = none ∨
          a.packets_recv = none ∨ a.errin = none ∨ a.errout = none ∨
          a.dropin = none ∨ a.dropout = none) →
        (name, zeroStats) ∈ get_interface_stats ifaces) ∧
      (∀ v1 v2 v3 v4 v5 v6 v7 v8,
        a = ⟨some v1, some v2, some v3, some v4, some v5, some v6, some v7,
          some v8⟩ →
        (name, (⟨v1, v2, v3, v4, v5, v6, v7, v8⟩ : InterfaceStats)) ∈
          get_interface_stats ifaces) := by
  refine ⟨List.length_map _ _, ?_⟩
  intro name a hmem
  constructor
  · intro habsent
    have h1 : (name, readCounters a) ∈ get_interface_stats ifaces :=
      List.mem_map_of_mem (fun p => (p.1, readCounters p.2)) hmem
    rw [readCounters_eq_zero habsent] at h1
    exact h1
  · intro v1 v2 v3 v4 v5 v6 v7 v8 hfull
    have h1 : (name, readCounters a) ∈ get_interface_stats ifaces :=
      List.mem_map_of_mem (fun p => (p.1, readCounters p.2)) hmem
    rw [hfull] at h1
    exact h1

/-- Witness for C8: one fully supported interface and one lacking all
counters; the first keeps its values, the second reports zeros, and both
are in the result. -/
theorem claim_C8_witness :
    (get_interface_stats
        [("eth0", ⟨some 1, some 2, some 3, some 4, some 5, some 6, some 7,
          some 8⟩),
         ("lo", ⟨none, none, none, none, none, none, none, none⟩)]).length =
      ([("eth0", (⟨some 1, some 2, some 3, some 4, some 5, some 6, some 7,
          some 8⟩ : RawCounters)),
        ("lo", ⟨none, none, none, none, none, none, none, none⟩)]).length ∧
    ("lo", zeroStats) ∈ get_interface_stats
      [("eth0", ⟨some 1, some 2, some 3, some 4, some 5, some 6, some 7,
        some 8⟩),
       ("lo", ⟨none, none, none, none, none, none, none, none⟩)] ∧
    ("eth0", (⟨1, 2, 3, 4, 5, 6, 7, 8⟩ : InterfaceStats)) ∈
      get_interface_stats
        [("eth0", ⟨some 1, some 2, some 3, some 4, some 5, some 6, some 7,
          some 8⟩),
         ("lo", ⟨none, none, none, none, none, none, none, none⟩)] :=
  ⟨(claim_C8_interface_zero_default _).1,
   ((claim_C8_interface_zero_default _).2 "lo"
      ⟨none, none, none, none, none, none, none, none⟩ (by decide)).1
     (by decide),
   ((claim_C8_interface_zero_default _).2 "eth0"
      ⟨some 1, some 2, some 3, some 4, some 5, some 6, some 7, some 8⟩
      (by decide)).2 1 2 3 4 5 6 7 8 rfl⟩

/- ===================== Claim C9 ===================== -/

/-- C9: for every cache state of the DNS monitor and of the certificate
monitor and every read time, `get_cache_stats` returns a pair with
entries at most size: the fresh entries never outnumber the whole
cache. -/
theorem claim_C9_entries_le_size (dns : DNSMonitor) (certs : SSLCertMonitor)
    (t1 t2 : ℚ) :
    (dns.get_cache_stats t1).entries ≤ (dns.get_cache_stats t1).size ∧
    (certs.get_cache_stats t2).entries ≤ (certs.get_cache_stats t2).size :=
  ⟨List.countP_le_length _, List.countP_le_length _⟩
